import Mathlib

/-!
Shallow embedding of the `better_weak` Arc/Weak reference-counting module
(src/src/arc/reference_counting.rs, mod better_weak).

The allocation record `ArcData<T>` holds two `AtomicUsize` counters:
`data_ref_count` (number of `Arc`s) and `alloc_ref_count` (number of `Weak`s,
plus one if there are any `Arc`s), and the payload in a
`UnsafeCell<ManuallyDrop<T>>`.

We model `usize` as a 64-bit unsigned integer (`Nat` with explicit wrapping
at 2^64 where the source's `fetch_add`/`fetch_sub` could wrap).  A state
carries the two counters, the payload value, and ghost observation fields:
the number of live `Arc` handles, the number of live `Weak` handles, the
number of times the payload destructor (`ManuallyDrop::drop`) has run, and
the number of times the allocation's backing `Box` has been freed.

Each Rust operation becomes a function on states; operations whose calls
require holding a handle are guarded by handle-count preconditions in the
reachability relation (in Rust one can only call `clone`/`drop`/`upgrade`/
`get_mut` through a handle one holds).  The atomic read-modify-write
instructions make each whole operation a single interleaving unit for the
counter logic modelled here; memory-ordering (fence) aspects are not
representable in this sequential embedding.
-/

namespace RustArc

/-- usize::MAX on a 64-bit target: 2^64 - 1. -/
def USIZE_MAX : Nat := 18446744073709551615

/-- 2^64, the wraparound modulus of `usize` arithmetic. -/
def USIZE_MOD : Nat := 18446744073709551616

/-- Wrapping increment, as performed by `AtomicUsize::fetch_add(1, _)`. -/
def fetchAdd1 (x : Nat) : Nat := (x + 1) % USIZE_MOD

/-- Wrapping decrement, as performed by `AtomicUsize::fetch_sub(1, _)`. -/
def fetchSub1 (x : Nat) : Nat := (x + USIZE_MOD - 1) % USIZE_MOD

/-- One `ArcData<T>` allocation together with ghost observation fields.

Source fields: `data_ref_count` (number of `Arc`s), `alloc_ref_count`
(number of `Weak`s plus one if there are any `Arc`s), `payload` (the data;
the payload type is abstracted to `Nat`).

Ghost fields: `strongHandles` / `weakHandles` count the live `Arc` / `Weak`
handles; `payloadDrops` counts executions of `ManuallyDrop::drop` on the
payload; `allocFrees` counts executions of `drop(Box::from_raw(..))` on the
allocation record. -/
structure ArcState where
  data_ref_count : Nat
  alloc_ref_count : Nat
  payload : Nat
  strongHandles : Nat
  weakHandles : Nat
  payloadDrops : Nat
  allocFrees : Nat
deriving Repr, DecidableEq

/-- `Arc::new(data)`: allocates the record with `alloc_ref_count = 1`,
`data_ref_count = 1`, payload initialized to `data`; returns one strong
handle. -/
def arcNew (data : Nat) : ArcState :=
  { data_ref_count := 1
    alloc_ref_count := 1
    payload := data
    strongHandles := 1
    weakHandles := 0
    payloadDrops := 0
    allocFrees := 0 }

/-- Result of a `clone` call: either the process aborts
(`std::process::abort()`, no successor state) or a new handle is returned in
the successor state. -/
inductive CloneResult where
  | abort : CloneResult
  | ok : ArcState → CloneResult
deriving Repr, DecidableEq

/-- `impl Clone for Arc` (better_weak): `data_ref_count.fetch_add(1, Relaxed)`;
if the pre-increment value exceeds `usize::MAX / 2`, abort; otherwise return
`Arc { ptr }` (one more live strong handle). -/
def cloneArc (s : ArcState) : CloneResult :=
  if s.data_ref_count > USIZE_MAX / 2 then .abort
  else .ok { s with
    data_ref_count := fetchAdd1 s.data_ref_count
    strongHandles := s.strongHandles + 1 }

/-- `impl Clone for Weak` (better_weak): `alloc_ref_count.fetch_add(1, Relaxed)`;
if the pre-increment value exceeds `usize::MAX / 2`, abort; otherwise return
`Weak { ptr }` (one more live weak handle). -/
def cloneWeak (s : ArcState) : CloneResult :=
  if s.alloc_ref_count > USIZE_MAX / 2 then .abort
  else .ok { s with
    alloc_ref_count := fetchAdd1 s.alloc_ref_count
    weakHandles := s.weakHandles + 1 }

/-- Modelled from the spec: the repository's `better_weak` module declares no
`downgrade`, although `get_mut`'s comments refer to one; the spec says weak
handles "are derived from it by cloning the weak sub-object", i.e. a
downgrade performs exactly a weak clone of the record (a relaxed fetch-add on
`alloc_ref_count` with the same overflow-abort guard), callable by any holder
of a strong handle. -/
def downgrade (s : ArcState) : CloneResult := cloneWeak s

/-- The body of `impl Drop for Weak` (better_weak):
`alloc_ref_count.fetch_sub(1, Release)`; if the pre-decrement value was 1,
issue an acquire fence and free the allocation (`drop(Box::from_raw(..))`).
This is shared verbatim by `Arc::drop`'s final `drop(Weak { ptr })`, which
drops the implicit weak pointer that represented all `Arc`s. -/
def weakDropInner (s : ArcState) : ArcState :=
  if s.alloc_ref_count = 1 then
    { s with
      alloc_ref_count := fetchSub1 s.alloc_ref_count
      allocFrees := s.allocFrees + 1 }
  else { s with alloc_ref_count := fetchSub1 s.alloc_ref_count }

/-- Dropping a live `Weak` handle: one fewer live weak handle, then the
`Weak::drop` body. -/
def dropWeak (s : ArcState) : ArcState :=
  weakDropInner { s with weakHandles := s.weakHandles - 1 }

/-- `impl Drop for Arc` (better_weak): `data_ref_count.fetch_sub(1, Release)`;
if the pre-decrement value was 1, issue an acquire fence, run
`ManuallyDrop::drop` on the payload, then `drop(Weak { ptr })` — dropping the
implicit weak pointer that represented all `Arc`s (the only freeing path). -/
def dropArc (s : ArcState) : ArcState :=
  if s.data_ref_count = 1 then
    weakDropInner { s with
      data_ref_count := fetchSub1 s.data_ref_count
      strongHandles := s.strongHandles - 1
      payloadDrops := s.payloadDrops + 1 }
  else { s with
    data_ref_count := fetchSub1 s.data_ref_count
    strongHandles := s.strongHandles - 1 }

/-- Result of `Weak::upgrade`: `nothing` models `return None`; `assertFailed`
models a failure of `assert!(n < usize::MAX)` (a panic); `ok` carries the
successor state in which the new `Arc` has been minted. -/
inductive UpgradeResult where
  | nothing : UpgradeResult
  | assertFailed : UpgradeResult
  | ok : ArcState → UpgradeResult
deriving Repr, DecidableEq

/-- `Weak::upgrade` (better_weak), sequential semantics: load
`n = data_ref_count`; if `n == 0` return `None`; `assert!(n < usize::MAX)`;
compare-exchange `n → n + 1` (which succeeds with no interference, the
retry loop being pure contention handling) and return
`Some(Arc { ptr })`. -/
def upgrade (s : ArcState) : UpgradeResult :=
  if s.data_ref_count = 0 then .nothing
  else if s.data_ref_count < USIZE_MAX then
    .ok { s with
      data_ref_count := s.data_ref_count + 1
      strongHandles := s.strongHandles + 1 }
  else .assertFailed

/-- `Weak::get_mut` (better_weak): `alloc_ref_count.compare_exchange(1,
usize::MAX, Acquire, Relaxed)`; on failure return `None`; otherwise read
`is_unique = (data_ref_count == 1)`, restore `alloc_ref_count` to 1 with a
release store, and grant the mutable reference iff `is_unique`.  Returns the
grant decision paired with the state after the restore. -/
def getMut (s : ArcState) : Bool × ArcState :=
  if s.alloc_ref_count = 1 then
    (decide (s.data_ref_count = 1), { s with alloc_ref_count := 1 })
  else (false, s)

/-- The states reachable by any sequence of handle operations starting from
`Arc::new`.  Handle-count side conditions record that each Rust call is made
through a handle the caller holds. -/
inductive Reachable : ArcState → Prop where
  | new (data : Nat) : Reachable (arcNew data)
  | stepCloneArc {s s' : ArcState} : Reachable s → 1 ≤ s.strongHandles →
      cloneArc s = .ok s' → Reachable s'
  | stepCloneWeak {s s' : ArcState} : Reachable s → 1 ≤ s.weakHandles →
      cloneWeak s = .ok s' → Reachable s'
  | stepDowngrade {s s' : ArcState} : Reachable s → 1 ≤ s.strongHandles →
      downgrade s = .ok s' → Reachable s'
  | stepDropArc {s : ArcState} : Reachable s → 1 ≤ s.strongHandles →
      Reachable (dropArc s)
  | stepDropWeak {s : ArcState} : Reachable s → 1 ≤ s.weakHandles →
      Reachable (dropWeak s)
  | stepUpgrade {s s' : ArcState} : Reachable s → 1 ≤ s.weakHandles →
      upgrade s = .ok s' → Reachable s'
  | stepGetMut {s : ArcState} : Reachable s → 1 ≤ s.weakHandles →
      Reachable (getMut s).2

/-- A concrete scenario state: one strong handle and one weak handle
outstanding (payload 7), as produced by `Arc::new(7)` followed by one
downgrade. -/
def sOneStrongOneWeak : ArcState :=
  { data_ref_count := 1
    alloc_ref_count := 2
    payload := 7
    strongHandles := 1
    weakHandles := 1
    payloadDrops := 0
    allocFrees := 0 }

/-- A concrete scenario state: `usize::MAX` live strong handles and one weak
handle, produced by one downgrade followed by `usize::MAX - 1` successful
upgrades (upgrades carry no overflow-abort guard). -/
def sMaxStrong : ArcState :=
  { data_ref_count := USIZE_MAX
    alloc_ref_count := 2
    payload := 7
    strongHandles := USIZE_MAX
    weakHandles := 1
    payloadDrops := 0
    allocFrees := 0 }

/-- The state invariant: `data_ref_count` equals the number of live strong
handles; `alloc_ref_count` equals the number of live weak handles plus one
extra unit iff there is a strong handle; the payload destructor has run
exactly when no strong handle is left; the allocation has been freed exactly
when `alloc_ref_count` is zero; both counters fit in `usize`. -/
def Inv (s : ArcState) : Prop :=
  s.data_ref_count = s.strongHandles ∧
  s.alloc_ref_count = s.weakHandles + (if s.strongHandles = 0 then 0 else 1) ∧
  s.payloadDrops = (if s.strongHandles = 0 then 1 else 0) ∧
  s.allocFrees = (if s.alloc_ref_count = 0 then 1 else 0) ∧
  s.data_ref_count ≤ USIZE_MAX ∧
  s.alloc_ref_count ≤ USIZE_MAX

theorem inv_new (data : Nat) : Inv (arcNew data) := by
  simp [Inv, arcNew, USIZE_MAX]

theorem inv_cloneArc {s s' : ArcState} (h : Inv s) (hS : 1 ≤ s.strongHandles)
    (hc : cloneArc s = .ok s') : Inv s' := by
  obtain ⟨d, a, p, S, W, pd, af⟩ := s
  obtain ⟨h1, h2, h3, h4, h5, h6⟩ := h
  simp only [Inv, cloneArc, fetchAdd1, USIZE_MAX, USIZE_MOD] at *
  split at hc
  · exact absurd hc (by simp)
  · rename_i hguard
    cases hc
    simp only [Inv, fetchAdd1, USIZE_MAX, USIZE_MOD]
    refine ⟨?_, ?_, ?_, ?_, ?_, ?_⟩ <;> (try split_ifs at *) <;> (try dsimp only at *) <;> omega

theorem inv_cloneWeak {s s' : ArcState} (h : Inv s)
    (hW : 1 ≤ s.weakHandles ∨ 1 ≤ s.strongHandles)
    (hc : cloneWeak s = .ok s') : Inv s' := by
  obtain ⟨d, a, p, S, W, pd, af⟩ := s
  obtain ⟨h1, h2, h3, h4, h5, h6⟩ := h
  simp only [Inv, cloneWeak, fetchAdd1, USIZE_MAX, USIZE_MOD] at *
  split at hc
  · exact absurd hc (by simp)
  · rename_i hguard
    cases hc
    simp only [Inv, fetchAdd1, USIZE_MAX, USIZE_MOD]
    refine ⟨?_, ?_, ?_, ?_, ?_, ?_⟩ <;> (try split_ifs at *) <;> (try dsimp only at *) <;> omega

theorem inv_dropArc {s : ArcState} (h : Inv s) (hS : 1 ≤ s.strongHandles) :
    Inv (dropArc s) := by
  obtain ⟨d, a, p, S, W, pd, af⟩ := s
  obtain ⟨h1, h2, h3, h4, h5, h6⟩ := h
  simp only [Inv, dropArc, weakDropInner, fetchSub1, USIZE_MAX, USIZE_MOD] at *
  refine ⟨?_, ?_, ?_, ?_, ?_, ?_⟩ <;> (try split_ifs at *) <;> (try dsimp only at *) <;> omega

theorem inv_dropWeak {s : ArcState} (h : Inv s) (hW : 1 ≤ s.weakHandles) :
    Inv (dropWeak s) := by
  obtain ⟨d, a, p, S, W, pd, af⟩ := s
  obtain ⟨h1, h2, h3, h4, h5, h6⟩ := h
  simp only [Inv, dropWeak, weakDropInner, fetchSub1, USIZE_MAX, USIZE_MOD] at *
  refine ⟨?_, ?_, ?_, ?_, ?_, ?_⟩ <;> (try split_ifs at *) <;> (try dsimp only at *) <;> omega

theorem inv_upgrade {s s' : ArcState} (h : Inv s)
    (hu : upgrade s = .ok s') : Inv s' := by
  obtain ⟨d, a, p, S, W, pd, af⟩ := s
  obtain ⟨h1, h2, h3, h4, h5, h6⟩ := h
  simp only [Inv, upgrade, USIZE_MAX] at *
  split at hu
  · exact absurd hu (by simp)
  · split at hu
    · rename_i hne hlt
      cases hu
      simp only [Inv, USIZE_MAX]
      refine ⟨?_, ?_, ?_, ?_, ?_, ?_⟩ <;> (try split_ifs at *) <;> (try dsimp only at *) <;> omega
    · exact absurd hu (by simp)

theorem getMut_state_eq (s : ArcState) : (getMut s).2 = s := by
  obtain ⟨d, a, p, S, W, pd, af⟩ := s
  simp only [getMut]
  split
  · rename_i ha
    simp_all
  · rfl

/-- Every reachable state satisfies the invariant. -/
theorem reachable_inv {s : ArcState} (h : Reachable s) : Inv s := by
  induction h with
  | new data => exact inv_new data
  | stepCloneArc h hS hc ih => exact inv_cloneArc ih hS hc
  | stepCloneWeak h hW hc ih => exact inv_cloneWeak ih (Or.inl hW) hc
  | stepDowngrade h hS hc ih => exact inv_cloneWeak ih (Or.inr hS) hc
  | stepDropArc h hS ih => exact inv_dropArc ih hS
  | stepDropWeak h hW ih => exact inv_dropWeak ih hW
  | stepUpgrade h hW hu ih => exact inv_upgrade ih hu
  | stepGetMut h hW ih => rw [getMut_state_eq]; exact ih

theorem fetchAdd1_eq_of_le {x : Nat} (h : x ≤ USIZE_MAX / 2) :
    fetchAdd1 x = x + 1 := by
  simp only [fetchAdd1, USIZE_MOD, USIZE_MAX] at *
  omega

theorem reachable_sOneStrongOneWeak : Reachable sOneStrongOneWeak :=
  Reachable.stepDowngrade (Reachable.new 7) (by decide) (by decide)

/-- Every state with `k` strong handles (1 ≤ k ≤ usize::MAX) and one weak
handle is reachable: one downgrade, then `k - 1` successful upgrades, none of
which is stopped by any overflow guard. -/
theorem reachable_k_strong (k : Nat) (h1 : 1 ≤ k) (h2 : k ≤ USIZE_MAX) :
    Reachable
      { data_ref_count := k
        alloc_ref_count := 2
        payload := 7
        strongHandles := k
        weakHandles := 1
        payloadDrops := 0
        allocFrees := 0 } := by
  induction k with
  | zero => omega
  | succ n ih =>
    rcases Nat.lt_or_ge 0 n with hn | hn
    · have hn2 : n ≤ USIZE_MAX := by omega
      have hr := ih hn hn2
      refine Reachable.stepUpgrade hr (by exact Nat.le_refl 1) ?_
      have hne : ¬ (n = 0) := by omega
      have hlt : n < USIZE_MAX := by
        simp only [USIZE_MAX] at *
        omega
      simp only [upgrade, hne, hlt, if_true, if_false, ite_true, ite_false]
    · have hz : n = 0 := by omega
      subst hz
      exact reachable_sOneStrongOneWeak

theorem reachable_sMaxStrong : Reachable sMaxStrong := by
  have h := reachable_k_strong USIZE_MAX (by norm_num [USIZE_MAX]) (Nat.le_refl _)
  exact h

/-- C1: at every reachable state, `data_ref_count` equals the number of live
strong handles, and `alloc_ref_count` equals the number of live weak handles
plus one extra unit iff the strong count is nonzero; the invariant is
established by `new` (both counters 1, one strong handle, no weak handle) and
preserved by every operation, since `Reachable` is closed under strong clone,
strong drop, weak clone, weak drop, upgrade, downgrade and `get_mut`. -/
theorem C1_counter_invariant (v : Nat) (s : ArcState) (h : Reachable s) :
    ((arcNew v).data_ref_count = 1 ∧ (arcNew v).alloc_ref_count = 1 ∧
      (arcNew v).strongHandles = 1 ∧ (arcNew v).weakHandles = 0) ∧
    s.data_ref_count = s.strongHandles ∧
    s.alloc_ref_count = s.weakHandles +
      (if s.strongHandles = 0 then 0 else 1) := by
  obtain ⟨h1, h2, h3, h4, h5, h6⟩ := reachable_inv h
  exact ⟨⟨rfl, rfl, rfl, rfl⟩, h1, h2⟩

theorem C1_counter_invariant_witness :
    ((arcNew 5).data_ref_count = 1 ∧ (arcNew 5).alloc_ref_count = 1 ∧
      (arcNew 5).strongHandles = 1 ∧ (arcNew 5).weakHandles = 0) ∧
    sOneStrongOneWeak.data_ref_count = sOneStrongOneWeak.strongHandles ∧
    sOneStrongOneWeak.alloc_ref_count = sOneStrongOneWeak.weakHandles +
      (if sOneStrongOneWeak.strongHandles = 0 then 0 else 1) :=
  C1_counter_invariant 5 sOneStrongOneWeak reachable_sOneStrongOneWeak

/-- C2: at every reachable state the payload destructor has run at most once,
and it has run exactly once iff no strong handle is left; dropping a strong
handle runs it exactly when that drop is the strong-count 1-to-0 transition;
and while any weak handle remains the allocation has not been freed. -/
theorem C2_payload_destroyed_once (s : ArcState) (h : Reachable s) :
    s.payloadDrops ≤ 1 ∧
    (s.payloadDrops = 1 ↔ s.strongHandles = 0) ∧
    (1 ≤ s.strongHandles →
      (dropArc s).payloadDrops =
        (if s.strongHandles = 1 then s.payloadDrops + 1 else s.payloadDrops)) ∧
    (1 ≤ s.weakHandles → s.allocFrees = 0) := by
  obtain ⟨d, a, p, S, W, pd, af⟩ := s
  obtain ⟨h1, h2, h3, h4, h5, h6⟩ := reachable_inv h
  simp only [dropArc, weakDropInner, fetchSub1, USIZE_MAX, USIZE_MOD] at *
  refine ⟨?_, ?_, ?_, ?_⟩ <;> intros <;> (try split_ifs at *) <;>
    (try dsimp only at *) <;> omega

theorem C2_payload_destroyed_once_witness :
    sOneStrongOneWeak.payloadDrops ≤ 1 ∧
    (sOneStrongOneWeak.payloadDrops = 1 ↔
      sOneStrongOneWeak.strongHandles = 0) ∧
    (1 ≤ sOneStrongOneWeak.strongHandles →
      (dropArc sOneStrongOneWeak).payloadDrops =
        (if sOneStrongOneWeak.strongHandles = 1 then
          sOneStrongOneWeak.payloadDrops + 1
        else sOneStrongOneWeak.payloadDrops)) ∧
    (1 ≤ sOneStrongOneWeak.weakHandles → sOneStrongOneWeak.allocFrees = 0) :=
  C2_payload_destroyed_once sOneStrongOneWeak reachable_sOneStrongOneWeak

/-- C3: at every reachable state the allocation has been freed at most once,
it has been freed exactly once iff `alloc_ref_count` is zero, freeing never
precedes the payload's destruction, and a drop of either handle kind frees
exactly at the `alloc_ref_count` 1-to-0 transition (for a strong drop this is
the embedded implicit-weak drop, the only freeing path). -/
theorem C3_alloc_freed_once (s : ArcState) (h : Reachable s) :
    s.allocFrees ≤ 1 ∧
    (s.allocFrees = 1 ↔ s.alloc_ref_count = 0) ∧
    (s.allocFrees = 1 → s.payloadDrops = 1) ∧
    (1 ≤ s.weakHandles →
      (dropWeak s).allocFrees =
        (if s.alloc_ref_count = 1 then s.allocFrees + 1 else s.allocFrees)) ∧
    (1 ≤ s.strongHandles →
      (dropArc s).allocFrees =
        (if s.data_ref_count = 1 ∧ s.alloc_ref_count = 1 then
          s.allocFrees + 1
        else s.allocFrees)) := by
  obtain ⟨d, a, p, S, W, pd, af⟩ := s
  obtain ⟨h1, h2, h3, h4, h5, h6⟩ := reachable_inv h
  simp only [dropArc, dropWeak, weakDropInner, fetchSub1, USIZE_MAX,
    USIZE_MOD] at *
  refine ⟨?_, ?_, ?_, ?_, ?_⟩ <;> intros <;> (try split_ifs at *) <;>
    (try dsimp only at *) <;> omega

theorem C3_alloc_freed_once_witness :
    sOneStrongOneWeak.allocFrees ≤ 1 ∧
    (sOneStrongOneWeak.allocFrees = 1 ↔
      sOneStrongOneWeak.alloc_ref_count = 0) ∧
    (sOneStrongOneWeak.allocFrees = 1 →
      sOneStrongOneWeak.payloadDrops = 1) ∧
    (1 ≤ sOneStrongOneWeak.weakHandles →
      (dropWeak sOneStrongOneWeak).allocFrees =
        (if sOneStrongOneWeak.alloc_ref_count = 1 then
          sOneStrongOneWeak.allocFrees + 1
        else sOneStrongOneWeak.allocFrees)) ∧
    (1 ≤ sOneStrongOneWeak.strongHandles →
      (dropArc sOneStrongOneWeak).allocFrees =
        (if sOneStrongOneWeak.data_ref_count = 1 ∧
            sOneStrongOneWeak.alloc_ref_count = 1 then
          sOneStrongOneWeak.allocFrees + 1
        else sOneStrongOneWeak.allocFrees)) :=
  C3_alloc_freed_once sOneStrongOneWeak reachable_sOneStrongOneWeak

/-- C4: at every reachable state the `get_mut` probe grants exclusive access
iff exactly one strong handle and zero weak handles exist (the
compare-and-swap of `alloc_ref_count` from 1 to the `usize::MAX` sentinel
succeeds and `data_ref_count` then equals 1), and the probe restores
`alloc_ref_count`, leaving the state unchanged either way. -/
theorem C4_get_mut_iff_unique (s : ArcState) (h : Reachable s) :
    ((getMut s).1 = true ↔ s.strongHandles = 1 ∧ s.weakHandles = 0) ∧
    (getMut s).2 = s := by
  obtain ⟨d, a, p, S, W, pd, af⟩ := s
  obtain ⟨h1, h2, h3, h4, h5, h6⟩ := reachable_inv h
  simp only [getMut]
  constructor
  · split_ifs at * <;> simp_all
    omega
  · split_ifs at * <;> simp_all

/-- Scenario D, stated through the theorem: with one strong and one weak
handle the probe is denied; once the weak handle is dropped, the probe on the
unique strong handle is granted. -/
theorem C4_get_mut_iff_unique_witness :
    (((getMut sOneStrongOneWeak).1 = true ↔
        sOneStrongOneWeak.strongHandles = 1 ∧
        sOneStrongOneWeak.weakHandles = 0) ∧
      (getMut sOneStrongOneWeak).2 = sOneStrongOneWeak) ∧
    (((getMut (dropWeak sOneStrongOneWeak)).1 = true ↔
        (dropWeak sOneStrongOneWeak).strongHandles = 1 ∧
        (dropWeak sOneStrongOneWeak).weakHandles = 0) ∧
      (getMut (dropWeak sOneStrongOneWeak)).2 = dropWeak sOneStrongOneWeak) :=
  ⟨C4_get_mut_iff_unique sOneStrongOneWeak reachable_sOneStrongOneWeak,
    C4_get_mut_iff_unique (dropWeak sOneStrongOneWeak)
      (Reachable.stepDropWeak reachable_sOneStrongOneWeak (by decide))⟩

/-- C6 (amended): upgrade returns nothing iff `data_ref_count` is 0 at the
check; when the count is nonzero and below `usize::MAX` it returns a usable
new strong handle through the Option; at `usize::MAX` (reachable only
through `usize::MAX - 1` outstanding strong references) the assertion fails
instead, since the upgrade path carries no overflow-abort guard. -/
theorem C6_upgrade_result (s : ArcState) :
    (upgrade s = .nothing ↔ s.data_ref_count = 0) ∧
    (s.data_ref_count ≠ 0 → s.data_ref_count < USIZE_MAX →
      upgrade s = .ok { s with
        data_ref_count := s.data_ref_count + 1
        strongHandles := s.strongHandles + 1 }) := by
  constructor
  · simp only [upgrade]
    split_ifs with h0 hlt <;> simp_all
  · intro hne hlt
    simp only [upgrade, if_neg hne, if_pos hlt]

theorem C6_upgrade_result_witness :
    (upgrade sOneStrongOneWeak = .nothing ↔
      sOneStrongOneWeak.data_ref_count = 0) ∧
    upgrade sOneStrongOneWeak = .ok { sOneStrongOneWeak with
      data_ref_count := sOneStrongOneWeak.data_ref_count + 1
      strongHandles := sOneStrongOneWeak.strongHandles + 1 } :=
  ⟨(C6_upgrade_result sOneStrongOneWeak).1,
    (C6_upgrade_result sOneStrongOneWeak).2 (by decide) (by decide)⟩

/-- C6 counterexample: at the reachable state with `usize::MAX` strong
handles, `data_ref_count` is nonzero yet upgrade mints no handle — the
assertion fails (a panic), refuting that a nonzero count always yields a
new strong handle and that upgrade never panics. -/
theorem C6_upgrade_can_panic :
    Reachable sMaxStrong ∧ sMaxStrong.data_ref_count ≠ 0 ∧
    upgrade sMaxStrong = .assertFailed :=
  ⟨reachable_sMaxStrong, by decide, by decide⟩

/-- C7: whenever upgrade succeeds it increments `data_ref_count` by exactly
one and mints exactly one strong handle, leaving `alloc_ref_count`, the
payload, the weak-handle count and the destruction bookkeeping untouched:
the new strong handle shares the single alloc-count unit already held
collectively by all strong handles. -/
theorem C7_upgrade_frame (s s' : ArcState) (hu : upgrade s = .ok s') :
    s'.data_ref_count = s.data_ref_count + 1 ∧
    s'.strongHandles = s.strongHandles + 1 ∧
    s'.alloc_ref_count = s.alloc_ref_count ∧
    s'.payload = s.payload ∧
    s'.weakHandles = s.weakHandles ∧
    s'.payloadDrops = s.payloadDrops ∧
    s'.allocFrees = s.allocFrees := by
  simp only [upgrade] at hu
  split_ifs at hu
  injection hu with hu
  subst hu
  exact ⟨rfl, rfl, rfl, rfl, rfl, rfl, rfl⟩

theorem C7_upgrade_frame_witness :
    (⟨2, 2, 7, 2, 1, 0, 0⟩ : ArcState).data_ref_count =
      sOneStrongOneWeak.data_ref_count + 1 ∧
    (⟨2, 2, 7, 2, 1, 0, 0⟩ : ArcState).strongHandles =
      sOneStrongOneWeak.strongHandles + 1 ∧
    (⟨2, 2, 7, 2, 1, 0, 0⟩ : ArcState).alloc_ref_count =
      sOneStrongOneWeak.alloc_ref_count ∧
    (⟨2, 2, 7, 2, 1, 0, 0⟩ : ArcState).payload =
      sOneStrongOneWeak.payload ∧
    (⟨2, 2, 7, 2, 1, 0, 0⟩ : ArcState).weakHandles =
      sOneStrongOneWeak.weakHandles ∧
    (⟨2, 2, 7, 2, 1, 0, 0⟩ : ArcState).payloadDrops =
      sOneStrongOneWeak.payloadDrops ∧
    (⟨2, 2, 7, 2, 1, 0, 0⟩ : ArcState).allocFrees =
      sOneStrongOneWeak.allocFrees :=
  C7_upgrade_frame sOneStrongOneWeak ⟨2, 2, 7, 2, 1, 0, 0⟩ (by decide)

/-- C8: a strong clone aborts the process iff the pre-increment
`data_ref_count` exceeds `usize::MAX / 2`, and below that guard it returns a
new strong handle changing only `data_ref_count` (incremented by one); a weak
clone behaves identically on `alloc_ref_count`. -/
theorem C8_clone_overflow_guard (s : ArcState) :
    (cloneArc s = .abort ↔ s.data_ref_count > USIZE_MAX / 2) ∧
    (s.data_ref_count ≤ USIZE_MAX / 2 →
      cloneArc s = .ok { s with
        data_ref_count := s.data_ref_count + 1
        strongHandles := s.strongHandles + 1 }) ∧
    (cloneWeak s = .abort ↔ s.alloc_ref_count > USIZE_MAX / 2) ∧
    (s.alloc_ref_count ≤ USIZE_MAX / 2 →
      cloneWeak s = .ok { s with
        alloc_ref_count := s.alloc_ref_count + 1
        weakHandles := s.weakHandles + 1 }) := by
  refine ⟨?_, ?_, ?_, ?_⟩
  · simp only [cloneArc]
    split_ifs with hg <;> simp_all
  · intro hle
    have hng : ¬ s.data_ref_count > USIZE_MAX / 2 := by omega
    simp only [cloneArc, if_neg hng, fetchAdd1_eq_of_le hle]
  · simp only [cloneWeak]
    split_ifs with hg <;> simp_all
  · intro hle
    have hng : ¬ s.alloc_ref_count > USIZE_MAX / 2 := by omega
    simp only [cloneWeak, if_neg hng, fetchAdd1_eq_of_le hle]

theorem C8_clone_overflow_guard_witness :
    cloneArc (arcNew 2) = .ok { arcNew 2 with
      data_ref_count := (arcNew 2).data_ref_count + 1
      strongHandles := (arcNew 2).strongHandles + 1 } ∧
    cloneWeak (arcNew 2) = .ok { arcNew 2 with
      alloc_ref_count := (arcNew 2).alloc_ref_count + 1
      weakHandles := (arcNew 2).weakHandles + 1 } :=
  ⟨(C8_clone_overflow_guard (arcNew 2)).2.1 (by decide),
    (C8_clone_overflow_guard (arcNew 2)).2.2.2 (by decide)⟩

/-- C9 (amended): at every reachable state, the assertion in upgrade fails
iff `data_ref_count` equals `usize::MAX`; it therefore never fails while
fewer than `usize::MAX` strong handles are live — but the code does not
prevent `usize::MAX` from being reached, because the upgrade path increments
`data_ref_count` with no overflow-abort guard. -/
theorem C9_assert_iff_max (s : ArcState) (h : Reachable s) :
    upgrade s = .assertFailed ↔ s.data_ref_count = USIZE_MAX := by
  have h5 := (reachable_inv h).2.2.2.2.1
  simp only [upgrade]
  split_ifs with h0 hlt <;> (try simp_all [USIZE_MAX]) <;> omega

theorem C9_assert_iff_max_witness :
    upgrade (arcNew 4) = .assertFailed ↔
      (arcNew 4).data_ref_count = USIZE_MAX :=
  C9_assert_iff_max (arcNew 4) (Reachable.new 4)

/-- C9 counterexample: a reachable state in which upgrade reads
`n = usize::MAX` and the assertion fails, so the claimed invariant does not
hold of every reachable state (it is reached by one downgrade and
`usize::MAX - 1` successful upgrades). -/
theorem C9_assert_fails_at_max :
    Reachable sMaxStrong ∧ sMaxStrong.data_ref_count = USIZE_MAX ∧
    upgrade sMaxStrong = .assertFailed :=
  ⟨reachable_sMaxStrong, by decide, by decide⟩

/-- C10: `get_mut`, a method of the weak handle taking `&mut Weak<T>`, never
grants exclusive access through a weak handle that is itself counted in
`alloc_ref_count`: at every reachable state with at least one live weak
handle the probe returns `None` — with a strong handle present
`alloc_ref_count` is at least 2 and the compare-and-swap from 1 fails, and
with no strong handle `data_ref_count` is 0 and the uniqueness check
fails. -/
theorem C10_get_mut_denied_through_weak (s : ArcState) (h : Reachable s)
    (hW : 1 ≤ s.weakHandles) : (getMut s).1 = false := by
  obtain ⟨d, a, p, S, W, pd, af⟩ := s
  obtain ⟨h1, h2, h3, h4, h5, h6⟩ := reachable_inv h
  simp only [getMut] at *
  split_ifs with ha
  · dsimp only
    simp only [decide_eq_false_iff_not]
    split_ifs at h2 h3 <;> omega
  · rfl

theorem C10_get_mut_denied_through_weak_witness :
    (getMut sOneStrongOneWeak).1 = false :=
  C10_get_mut_denied_through_weak sOneStrongOneWeak
    reachable_sOneStrongOneWeak (by decide)

end RustArc
